import Mathlib

/-!
Verification of the simulation-and-opponent-AI engine of the `tron-react`
repository (class `TronEngine`, file `src/game/engine.ts`).

The engine's numeric state (positions, speeds, timers) is embedded as exact
rational arithmetic.  JavaScript numbers are modelled by the unnormalized
fraction type `Tron.Q` below (numerator/denominator over `ℤ`) rather than by
Mathlib's `ℚ`, so that every engine function is executable by kernel
reduction (`decide`); the interpretation `Q.val : Q → ℚ` and the
homomorphism lemmas following it certify that the `Q` operations implement
ordinary rational arithmetic.  Every `Q` value produced by the embedding has
a positive denominator: literals have denominator 1, `+`, `-`, `*` multiply
denominators, and `/` normalizes the sign of the divisor.

The source compares Euclidean distances (`Math.hypot`) against nonnegative
radii; the embedding compares squared distances against squared radii, which
is equivalent and avoids square roots.
-/

namespace Tron

/-- Unnormalized rational number: `num / den`.  All values constructed by the
engine embedding have `0 < den`. -/
structure Q where
  num : ℤ
  den : ℤ
deriving DecidableEq, Repr

instance (n : ℕ) : OfNat Q n := ⟨⟨n, 1⟩⟩

instance : Add Q := ⟨fun a b => ⟨a.num * b.den + b.num * a.den, a.den * b.den⟩⟩

instance : Sub Q := ⟨fun a b => ⟨a.num * b.den - b.num * a.den, a.den * b.den⟩⟩

instance : Mul Q := ⟨fun a b => ⟨a.num * b.num, a.den * b.den⟩⟩

instance : Neg Q := ⟨fun a => ⟨-a.num, a.den⟩⟩

/-- Division; the sign of the divisor's numerator is moved into the result's
numerator so that positive denominators are preserved. -/
instance : Div Q := ⟨fun a b =>
  if 0 ≤ b.num then ⟨a.num * b.den, a.den * b.num⟩
  else ⟨-(a.num * b.den), -(a.den * b.num)⟩⟩

instance : LE Q := ⟨fun a b => a.num * b.den ≤ b.num * a.den⟩

instance : LT Q := ⟨fun a b => a.num * b.den < b.num * a.den⟩

instance (a b : Q) : Decidable (a ≤ b) :=
  inferInstanceAs (Decidable (a.num * b.den ≤ b.num * a.den))

instance (a b : Q) : Decidable (a < b) :=
  inferInstanceAs (Decidable (a.num * b.den < b.num * a.den))

/-- Numeric equality of two `Q` values (the embedding of Javascript `===` on
numbers; distinct from structural equality of the fraction representation). -/
def Q.qeq (a b : Q) : Bool := a.num * b.den == b.num * a.den

/-- Embedding of `Math.min`. -/
def Q.qmin (a b : Q) : Q := if a ≤ b then a else b

/-- Embedding of `Math.max`. -/
def Q.qmax (a b : Q) : Q := if a ≤ b then b else a

/-- Embedding of `Math.floor`, valid for positive denominators. -/
def Q.qfloor (a : Q) : ℤ := a.num.fdiv a.den

/-- Interpretation of a `Q` value as a rational number. -/
def Q.val (a : Q) : ℚ := (a.num : ℚ) / (a.den : ℚ)

theorem Q.val_add (a b : Q) (ha : 0 < a.den) (hb : 0 < b.den) :
    (a + b).val = a.val + b.val := by
  have ha' : (a.den : ℚ) ≠ 0 := Int.cast_ne_zero.mpr (ne_of_gt ha)
  have hb' : (b.den : ℚ) ≠ 0 := Int.cast_ne_zero.mpr (ne_of_gt hb)
  show ((a.num * b.den + b.num * a.den : ℤ) : ℚ) / ((a.den * b.den : ℤ) : ℚ) = _
  unfold Q.val
  push_cast
  field_simp

theorem Q.val_sub (a b : Q) (ha : 0 < a.den) (hb : 0 < b.den) :
    (a - b).val = a.val - b.val := by
  have ha' : (a.den : ℚ) ≠ 0 := Int.cast_ne_zero.mpr (ne_of_gt ha)
  have hb' : (b.den : ℚ) ≠ 0 := Int.cast_ne_zero.mpr (ne_of_gt hb)
  show ((a.num * b.den - b.num * a.den : ℤ) : ℚ) / ((a.den * b.den : ℤ) : ℚ) = _
  unfold Q.val
  push_cast
  field_simp
  ring

theorem Q.val_mul (a b : Q) : (a * b).val = a.val * b.val := by
  show ((a.num * b.num : ℤ) : ℚ) / ((a.den * b.den : ℤ) : ℚ) = _
  push_cast
  unfold Q.val
  rw [div_mul_div_comm]

theorem Q.val_le_iff (a b : Q) (ha : 0 < a.den) (hb : 0 < b.den) :
    a ≤ b ↔ a.val ≤ b.val := by
  have ha' : (0 : ℚ) < (a.den : ℚ) := by exact_mod_cast ha
  have hb' : (0 : ℚ) < (b.den : ℚ) := by exact_mod_cast hb
  show a.num * b.den ≤ b.num * a.den ↔ _
  rw [Q.val, Q.val, div_le_div_iff₀ ha' hb']
  constructor
  · intro h
    exact_mod_cast h
  · intro h
    exact_mod_cast h

theorem Q.val_lt_iff (a b : Q) (ha : 0 < a.den) (hb : 0 < b.den) :
    a < b ↔ a.val < b.val := by
  have ha' : (0 : ℚ) < (a.den : ℚ) := by exact_mod_cast ha
  have hb' : (0 : ℚ) < (b.den : ℚ) := by exact_mod_cast hb
  show a.num * b.den < b.num * a.den ↔ _
  rw [Q.val, Q.val, div_lt_div_iff₀ ha' hb']
  constructor
  · intro h
    exact_mod_cast h
  · intro h
    exact_mod_cast h

theorem Q.add_den_pos (a b : Q) (ha : 0 < a.den) (hb : 0 < b.den) :
    0 < (a + b).den := mul_pos ha hb

theorem Q.sub_den_pos (a b : Q) (ha : 0 < a.den) (hb : 0 < b.den) :
    0 < (a - b).den := mul_pos ha hb

theorem Q.mul_den_pos (a b : Q) (ha : 0 < a.den) (hb : 0 < b.den) :
    0 < (a * b).den := mul_pos ha hb

theorem Q.div_den_pos (a b : Q) (ha : 0 < a.den)
    (hbn : b.num ≠ 0) : 0 < (a / b).den := by
  show 0 < (if 0 ≤ b.num then (⟨a.num * b.den, a.den * b.num⟩ : Q)
            else ⟨-(a.num * b.den), -(a.den * b.num)⟩).den
  split
  · next h => exact mul_pos ha (lt_of_le_of_ne h (Ne.symm hbn))
  · next h =>
      have : b.num < 0 := lt_of_not_ge h
      show 0 < -(a.den * b.num)
      have : a.den * b.num < 0 := mul_neg_of_pos_of_neg ha this
      omega

/-! ## Geometry and engine data model (from `src/game/engine.ts`) -/

/-- A 2D point or direction (`type Vec` in the source). -/
structure Vec where
  x : Q
  y : Q
deriving DecidableEq, Repr

/-- One straight piece of a trail (`type Segment` in the source). -/
structure Segment where
  a : Vec
  b : Vec
deriving DecidableEq, Repr

inductive Difficulty
  | easy
  | normal
  | hard
deriving DecidableEq, Repr

inductive RoundResult
  | player
  | ai
  | tie
deriving DecidableEq, Repr

inductive Direction
  | up
  | down
  | left
  | right
deriving DecidableEq, Repr

inductive AgentId
  | player
  | ai
deriving DecidableEq, Repr

/-- Per-agent state (`type PlayerState` in the source; the `id` and `color`
fields are presentation-only and carried implicitly by which engine field the
agent occupies). -/
structure Agent where
  pos : Vec
  dir : Vec
  segments : List Segment
deriving DecidableEq, Repr

def BASE_SPEED : Q := 240

def SPEED_STEP : Q := 20

def SPEED_INTERVAL : Q := 5

def MAX_SPEED : Q := 520

def TRAIL_WIDTH : Q := 6

def COLLISION_RADIUS : Q := 5

def COLLISION_TOLERANCE : Q := 1

def SPAWN_PADDING : Q := 80

/-- `const VORONOI_STEP = (TRAIL_WIDTH + COLLISION_RADIUS + COLLISION_TOLERANCE) * 2`. -/
def VORONOI_STEP : Q := (TRAIL_WIDTH + COLLISION_RADIUS + COLLISION_TOLERANCE) * 2

/-- Per-difficulty configuration (`type DifficultyConfig`); `minShortClear`
is a step count and is kept as a natural number. -/
structure DifficultyConfig where
  decisionInterval : Q
  sampleStep : Q
  lookahead : Q
  aggression : Q
  caution : Q
  randomness : Q
  interceptHorizon : Q
  simHorizon : Q
  minTurnBenefit : Q
  minShortClear : ℕ
deriving DecidableEq, Repr

/-- `const DIFFICULTY_CONFIG` (decimal literals written as exact fractions). -/
def DIFFICULTY_CONFIG : Difficulty → DifficultyConfig
  | .easy =>
    { decisionInterval := 1/5, sampleStep := 12, lookahead := 450,
      aggression := 1/5, caution := 13/10, randomness := 1/50,
      interceptHorizon := 3/10, simHorizon := 300, minTurnBenefit := 1/50,
      minShortClear := 6 }
  | .normal =>
    { decisionInterval := 1/10, sampleStep := 8, lookahead := 900,
      aggression := 4/5, caution := 3/2, randomness := 0,
      interceptHorizon := 7/10, simHorizon := 600, minTurnBenefit := 2/25,
      minShortClear := 8 }
  | .hard =>
    { decisionInterval := 1/20, sampleStep := 6, lookahead := 1400,
      aggression := 6/5, caution := 8/5, randomness := 0,
      interceptHorizon := 1, simHorizon := 900, minTurnBenefit := 1/20,
      minShortClear := 10 }

/-- `const DIRECTION_VECTORS`. -/
def DIRECTION_VECTORS : Direction → Vec
  | .up => ⟨0, -1⟩
  | .down => ⟨0, 1⟩
  | .left => ⟨-1, 0⟩
  | .right => ⟨1, 0⟩

/-- `function isOpposite(a, b) { return a.x + b.x === 0 && a.y + b.y === 0 }`. -/
def isOpposite (a b : Vec) : Bool :=
  (a.x + b.x).qeq 0 && (a.y + b.y).qeq 0

/-- `function isSameDirection(a, b) { return a.x === b.x && a.y === b.y }`. -/
def isSameDirection (a b : Vec) : Bool :=
  a.x.qeq b.x && a.y.qeq b.y

/-- Squared Euclidean distance.  The source's `distance(a, b)` is
`Math.hypot(a.x - b.x, a.y - b.y)`; every use compares it with a nonnegative
radius, so the embedding works with squares throughout. -/
def dist2 (a b : Vec) : Q :=
  (a.x - b.x) * (a.x - b.x) + (a.y - b.y) * (a.y - b.y)

/-- Squared form of `distancePointToSegment(p, a, b)`: the projection
parameter `t` is computed and clamped exactly as in the source, and the
squared distance to the closest point is returned. -/
def distancePointToSegmentSq (p a b : Vec) : Q :=
  let abx := b.x - a.x
  let aby := b.y - a.y
  let apx := p.x - a.x
  let apy := p.y - a.y
  let abLenSq := abx * abx + aby * aby
  if abLenSq.qeq 0 then apx * apx + apy * apy
  else
    let t := (apx * abx + apy * aby) / abLenSq
    let tc := Q.qmax 0 (Q.qmin 1 t)
    let cx := a.x + abx * tc
    let cy := a.y + aby * tc
    (p.x - cx) * (p.x - cx) + (p.y - cy) * (p.y - cy)

/-- `pointHitsSegments(point, segments, radius)`: true when the distance from
`point` to some segment is at most `radius` (compared in squared form). -/
def pointHitsSegments (point : Vec) (segments : List Segment) (radius : Q) : Bool :=
  segments.any fun s => distancePointToSegmentSq point s.a s.b ≤ radius * radius

/-- Arena-bound part of `checkCollision`: the candidate lies within `radius`
of an arena edge. -/
def boundsHit (width height radius : Q) (point : Vec) : Bool :=
  decide (point.x ≤ radius) || decide (width - radius ≤ point.x) ||
  decide (point.y ≤ radius) || decide (height - radius ≤ point.y)

/-- `checkCollision(point, self, other, inflate)` (the source defaults
`inflate` to `0`; callers in this file always pass `0` explicitly).  The
sequential early returns of the source are the disjuncts, in order: arena
bounds, the opponent's whole trail, then — only when the agent has more than
two segments — the agent's own trail with the two most recent segments
removed (`self.segments.slice(0, -2)`). -/
def checkCollision (width height : Q) (point : Vec) (self other : Agent)
    (inflate : Q) : Bool :=
  let radius := COLLISION_RADIUS + COLLISION_TOLERANCE + inflate
  boundsHit width height radius point ||
  pointHitsSegments point other.segments radius ||
  (decide (2 < self.segments.length) &&
    pointHitsSegments point (self.segments.take (self.segments.length - 2)) radius)

/-! ## Engine state

The per-tick mutable fields of class `TronEngine` that belong to the
simulation core.  Rendering state (`explosions`, `crashTimers`, `crashed`,
`wallShrink`, images, canvas, `dpr`) and the callback record are
presentation-only and are not part of the model; outcome and turn events are
returned as values instead of being raised through callbacks. -/
structure Engine where
  width : Q
  height : Q
  running : Bool
  paused : Bool
  speed : Q
  speedTimer : Q
  aiDecisionTimer : Q
  aiDistanceSinceTurn : Q
  player : Agent
  ai : Agent
  difficulty : Difficulty
deriving DecidableEq, Repr

/-! ## AI grid layer -/

/-- Grid-coordinate agent state (`GridState` from `./types`): position and
direction in cells, plus the `dead` flag set by `applyGridMove`. -/
structure GridState where
  x : ℤ
  y : ℤ
  dir : ℤ × ℤ
  dead : Bool
deriving DecidableEq, Repr

/-- Occupied-cell set; the source uses a `Set` of `"x:y"` strings, queried
only through membership, embedded as a duplicate-free list of cells. -/
def Cells := List (ℤ × ℤ)
deriving DecidableEq, Repr

def Cells.mem (c : Cells) (p : ℤ × ℤ) : Bool := List.contains c p

def Cells.insert (c : Cells) (p : ℤ × ℤ) : Cells :=
  if c.mem p then c else p :: (c : List (ℤ × ℤ))

/-- `getGridMoves(dir)`: forward first, then the two perpendicular turns in
the source's fixed order. -/
def getGridMoves (dir : ℤ × ℤ) : List (ℤ × ℤ) :=
  if dir.1 = 1 then [dir, (0, -1), (0, 1)]
  else if dir.1 = -1 then [dir, (0, 1), (0, -1)]
  else if dir.2 = 1 then [dir, (1, 0), (-1, 0)]
  else [dir, (-1, 0), (1, 0)]

def isSameGridDir (a b : ℤ × ℤ) : Bool := a.1 == b.1 && a.2 == b.2

/-- `gridDirToVec(dir)`. -/
def gridDirToVec (dir : ℤ × ℤ) : Vec :=
  if dir.1 = 1 then DIRECTION_VECTORS .right
  else if dir.1 = -1 then DIRECTION_VECTORS .left
  else if dir.2 = 1 then DIRECTION_VECTORS .down
  else DIRECTION_VECTORS .up

/-- `vectorToGridDir(dir)` (numeric comparisons of the source's `===`). -/
def vectorToGridDir (dir : Vec) : ℤ × ℤ :=
  if dir.x.qeq 1 then (1, 0)
  else if dir.x.qeq (-1) then (-1, 0)
  else if dir.y.qeq 1 then (0, 1)
  else (0, -1)

/-- `applyGridMove(state, dir, occupied, w, h)`.  The source receives a copy
of the occupancy set, inserts the surviving cell into it and discards the
copy, so the insertion is unobservable and omitted here; `dead` is set when
the stepped-to cell is off-grid or occupied, otherwise the incoming `dead`
flag is kept. -/
def applyGridMove (state : GridState) (dir : ℤ × ℤ) (occupied : Cells)
    (w h : ℤ) : GridState :=
  let nx := state.x + dir.1
  let ny := state.y + dir.2
  if nx < 0 ∨ ny < 0 ∨ w ≤ nx ∨ h ≤ ny then ⟨nx, ny, dir, true⟩
  else if occupied.mem (nx, ny) then ⟨nx, ny, dir, true⟩
  else ⟨nx, ny, dir, state.dead⟩

/-- `gridClearance(state, w, h, occupied, maxSteps)`: number of consecutive
free in-grid cells straight ahead, capped at `maxSteps` (the source's
`while (steps < maxSteps)` loop, structural on the remaining step budget). -/
def gridClearanceFrom (x y : ℤ) (dir : ℤ × ℤ) (w h : ℤ) (occupied : Cells) :
    ℕ → ℕ
  | 0 => 0
  | fuel + 1 =>
    let nx := x + dir.1
    let ny := y + dir.2
    if nx < 0 ∨ ny < 0 ∨ w ≤ nx ∨ h ≤ ny then 0
    else if occupied.mem (nx, ny) then 0
    else gridClearanceFrom nx ny dir w h occupied fuel + 1

def gridClearance (state : GridState) (w h : ℤ) (occupied : Cells)
    (maxSteps : ℕ) : ℕ :=
  gridClearanceFrom state.x state.y state.dir w h occupied maxSteps

/-- `gridMovesCount(state, occupied, w, h)`: how many of the three candidate
moves from `state` land on an in-grid unoccupied cell. -/
def gridMovesCount (state : GridState) (occupied : Cells) (w h : ℤ) : ℕ :=
  (getGridMoves state.dir).countP fun m =>
    let nx := state.x + m.1
    let ny := state.y + m.2
    ¬(nx < 0 ∨ ny < 0 ∨ w ≤ nx ∨ h ≤ ny) ∧ occupied.mem (nx, ny) = false

inductive Owner
  | ai
  | player
  | neutral
deriving DecidableEq, Repr

/-- Ownership map of the flood fill (the source's string-keyed `Map`),
embedded as an association list with distinct keys. -/
def OwnerMap := List ((ℤ × ℤ) × Owner)
deriving DecidableEq, Repr

def OwnerMap.find (m : OwnerMap) (c : ℤ × ℤ) : Option Owner :=
  match List.find? (fun e => e.1 == c) m with
  | some e => some e.2
  | none => none

def OwnerMap.set (m : OwnerMap) (c : ℤ × ℤ) (o : Owner) : OwnerMap :=
  match (m : List ((ℤ × ℤ) × Owner)) with
  | [] => [(c, o)]
  | e :: rest =>
    if e.1 == c then (c, o) :: rest else e :: OwnerMap.set rest c o

/-- One `gridVoronoiDiff` breadth-first iteration step, applied while fuel
remains; the queue is FIFO (the source shifts from the front and pushes to
the back).  A popped cell already in the map with a different owner is marked
neutral; a fresh cell keeps its owner and enqueues its in-bounds unoccupied
4-neighbours.  The fuel passed by `gridVoronoiDiff` strictly exceeds the
number of iterations the loop can perform, so it is never exhausted: each
iteration pops one entry, and the total number of entries ever enqueued is at
most `2` seeds plus `4` per fresh-cell insertion, of which there are at most
`w*h + 2`. -/
def voronoiLoop (occupied : Cells) (w h : ℤ) :
    ℕ → OwnerMap → List ((ℤ × ℤ) × Owner) → OwnerMap
  | 0, states, _ => states
  | _ + 1, states, [] => states
  | fuel + 1, states, (c, owner) :: rest =>
    match states.find c with
    | some existing =>
      let states := if existing ≠ owner then states.set c .neutral else states
      voronoiLoop occupied w h fuel states rest
    | none =>
      let states := states.set c owner
      let neighbors := [(c.1 + 1, c.2), (c.1 - 1, c.2), (c.1, c.2 + 1), (c.1, c.2 - 1)]
      let pushed := neighbors.filterMap fun n =>
        if (0 ≤ n.1 ∧ 0 ≤ n.2 ∧ n.1 < w ∧ n.2 < h) ∧ occupied.mem n = false
        then some (n, owner) else none
      voronoiLoop occupied w h fuel states (rest ++ pushed)

/-- `gridVoronoiDiff(ai, player, occupied, w, h)`: two-source flood fill from
the AI's candidate cell and the player's cell; result is
`count(ai-owned) - count(player-owned)`. -/
def gridVoronoiDiff (ai player : GridState) (occupied : Cells) (w h : ℤ) : ℤ :=
  let fuel := 4 * (w.toNat * h.toNat + 2) + 2
  let states := voronoiLoop occupied w h fuel []
    [((ai.x, ai.y), .ai), ((player.x, player.y), .player)]
  let aiOwned := (states.countP fun e => e.2 == Owner.ai : ℕ)
  let playerOwned := (states.countP fun e => e.2 == Owner.player : ℕ)
  (aiOwned : ℤ) - (playerOwned : ℤ)

/-- Bresenham inner loop of `buildOccupiedGrid`'s `markSegment`: marks the
current in-bounds cell, stops at the endpoint cell, otherwise advances `x`
and/or `y` by the accumulated error rule.  The fuel `|bx-ax| + |by-ay| + 1`
passed by `markSegment` equals the exact number of iterations, so it is
never exhausted. -/
def bresenhamLoop (w h bx bye dx dy sx sy : ℤ) :
    ℕ → ℤ → ℤ → ℤ → Cells → Cells
  | 0, _, _, _, occ => occ
  | fuel + 1, err, x, y, occ =>
    let occ := if 0 ≤ x ∧ 0 ≤ y ∧ x < w ∧ y < h then occ.insert (x, y) else occ
    if x = bx ∧ y = bye then occ
    else
      let e2 := 2 * err
      let err1 := if dy ≤ e2 then err + dy else err
      let x1 := if dy ≤ e2 then x + sx else x
      let err2 := if e2 ≤ dx then err1 + dx else err1
      let y1 := if e2 ≤ dx then y + sy else y
      bresenhamLoop w h bx bye dx dy sx sy fuel err2 x1 y1 occ

/-- `markSegment(a, b)` from `buildOccupiedGrid`: rasterize one trail segment
into the occupancy set. -/
def markSegment (cellSize : Q) (w h : ℤ) (occ : Cells) (s : Segment) : Cells :=
  let ax := (s.a.x / cellSize).qfloor
  let ay := (s.a.y / cellSize).qfloor
  let bx := (s.b.x / cellSize).qfloor
  let bye := (s.b.y / cellSize).qfloor
  let dx := |bx - ax|
  let dy := -|bye - ay|
  let sx : ℤ := if ax < bx then 1 else -1
  let sy : ℤ := if ay < bye then 1 else -1
  let fuel := (|bx - ax| + |bye - ay|).toNat + 1
  bresenhamLoop w h bx bye dx dy sx sy fuel (dx + dy) ax ay occ

/-- `buildOccupiedGrid(w, h, cellSize)`: every segment of both trails is
rasterized, the player's trail first. -/
def buildOccupiedGrid (e : Engine) (w h : ℤ) (cellSize : Q) : Cells :=
  let occ := e.player.segments.foldl (markSegment cellSize w h) []
  e.ai.segments.foldl (markSegment cellSize w h) occ

/-! ## AI decision (`decideAiDirection`) -/

/-- `const cellSize = VORONOI_STEP` together with
`Math.max(4, Math.floor(this.width / cellSize))`. -/
def gridWOf (e : Engine) : ℤ := max 4 (e.width / VORONOI_STEP).qfloor

def gridHOf (e : Engine) : ℤ := max 4 (e.height / VORONOI_STEP).qfloor

def occupiedOf (e : Engine) : Cells :=
  buildOccupiedGrid e (gridWOf e) (gridHOf e) VORONOI_STEP

/-- The `aiState` local of `decideAiDirection` (the source omits `dead`,
which reads as a falsy `undefined`). -/
def aiGridState (e : Engine) : GridState :=
  ⟨(e.ai.pos.x / VORONOI_STEP).qfloor, (e.ai.pos.y / VORONOI_STEP).qfloor,
   vectorToGridDir e.ai.dir, false⟩

def playerGridState (e : Engine) : GridState :=
  ⟨(e.player.pos.x / VORONOI_STEP).qfloor, (e.player.pos.y / VORONOI_STEP).qfloor,
   vectorToGridDir e.player.dir, false⟩

/-- `minTurnDistance`: `120 + speed * 0.25 * (hard ? 1.0 : normal ? 0.9 : 0.8)`
(read from the engine's difficulty field, not from the config argument). -/
def minTurnDistanceOf (e : Engine) : Q :=
  120 + e.speed * (1/4) *
    (match e.difficulty with
     | .hard => 1
     | .normal => 9/10
     | .easy => 4/5)

def turnCooldownOf (e : Engine) : Bool :=
  decide (e.aiDistanceSinceTurn < minTurnDistanceOf e)

/-- Whether a candidate move survives the rejection tests of the scoring
loop: `applyGridMove` did not mark it dead, and its straight-ahead clearance
(capped at the difficulty's `minShortClear`) is at least 2. -/
def moveSurvives (occupied : Cells) (a : GridState) (w h : ℤ)
    (minShort : ℕ) (m : ℤ × ℤ) : Prop :=
  (applyGridMove a m occupied w h).dead = false ∧
  2 ≤ gridClearance (applyGridMove a m occupied w h) w h occupied minShort

instance (occupied : Cells) (a : GridState) (w h : ℤ) (minShort : ℕ)
    (m : ℤ × ℤ) : Decidable (moveSurvives occupied a w h minShort m) :=
  inferInstanceAs (Decidable (_ ∧ _))

/-- The cell reached by grid move `m` from `a` is inside the grid and
unoccupied. -/
def moveSafe (occupied : Cells) (a : GridState) (w h : ℤ) (m : ℤ × ℤ) : Prop :=
  0 ≤ a.x + m.1 ∧ 0 ≤ a.y + m.2 ∧ a.x + m.1 < w ∧ a.y + m.2 < h ∧
  occupied.mem (a.x + m.1, a.y + m.2) = false

instance (occupied : Cells) (a : GridState) (w h : ℤ) (m : ℤ × ℤ) :
    Decidable (moveSafe occupied a w h m) :=
  inferInstanceAs (Decidable (_ ∧ _))

/-- Score of a surviving candidate:
`vor * 2.5 + mob * 0.5 + shortClear * 0.3`. -/
def moveScore (occupied : Cells) (a p : GridState) (w h : ℤ) (minShort : ℕ)
    (m : ℤ × ℤ) : Q :=
  let nextAi := applyGridMove a m occupied w h
  let shortClear := gridClearance nextAi w h occupied minShort
  let vor := gridVoronoiDiff nextAi p occupied w h
  let mob := gridMovesCount nextAi occupied w h
  ⟨vor, 1⟩ * (5/2) + ⟨(mob : ℤ), 1⟩ * (1/2) + ⟨(shortClear : ℤ), 1⟩ * (3/10)

/-- One iteration of the scoring loop over the candidate moves.  The
accumulator is `none` while `bestScore` is still `-Infinity`; a candidate is
skipped if `applyGridMove` killed it or its clearance is below 2, and
otherwise replaces the accumulator exactly when its score is strictly
larger (ties keep the earlier candidate). -/
def scoreStep (occupied : Cells) (a p : GridState) (w h : ℤ) (minShort : ℕ)
    (acc : Option (Q × (ℤ × ℤ))) (m : ℤ × ℤ) : Option (Q × (ℤ × ℤ)) :=
  let nextAi := applyGridMove a m occupied w h
  if nextAi.dead then acc
  else
    let shortClear := gridClearance nextAi w h occupied minShort
    if shortClear < 2 then acc
    else
      let score := moveScore occupied a p w h minShort m
      match acc with
      | none => some (score, m)
      | some (bestScore, bestDir) =>
        if bestScore < score then some (score, m) else some (bestScore, bestDir)

/-- The scoring loop of `decideAiDirection`: fold `scoreStep` over the
candidate moves starting from `bestScore = -Infinity`, `bestDir = null`. -/
def bestMoveOf (occupied : Cells) (a p : GridState) (w h : ℤ) (minShort : ℕ)
    (moves : List (ℤ × ℤ)) : Option (Q × (ℤ × ℤ)) :=
  moves.foldl (scoreStep occupied a p w h minShort) none

/-- `decideAiDirection(config)`, split from the engine state through the
named helper definitions above.  After the scoring loop, the forward-bias
override applies while `turnCooldown` holds: a scored winner equal to
`moves[0]` is returned at once; otherwise forward is returned when it is
alive with clearance at least 2; otherwise the scored winner (or `null`)
stands. -/
def decideAiDirection (e : Engine) (config : DifficultyConfig) : Option Vec :=
  let w := gridWOf e
  let h := gridHOf e
  let occupied := occupiedOf e
  let aiState := aiGridState e
  let playerState := playerGridState e
  let moves := getGridMoves aiState.dir
  let minShort := config.minShortClear
  let best := bestMoveOf occupied aiState playerState w h minShort moves
  let forward := moves.headD aiState.dir
  let forwardState := applyGridMove aiState forward occupied w h
  let forwardShort := gridClearance forwardState w h occupied minShort
  if turnCooldownOf e then
    match best with
    | some (_, bestDir) =>
      if isSameGridDir forward bestDir then some (gridDirToVec bestDir)
      else if !forwardState.dead && decide (2 ≤ forwardShort) then
        some (gridDirToVec forward)
      else some (gridDirToVec bestDir)
    | none =>
      if !forwardState.dead && decide (2 ≤ forwardShort) then
        some (gridDirToVec forward)
      else none
  else
    match best with
    | some (_, bestDir) => some (gridDirToVec bestDir)
    | none => none

/-! ## Engine operations -/

/-- `applyDirection(player, dir)`: set the direction, start a fresh
zero-length segment at the current position, reset the AI turn-distance
accumulator when the agent is the AI, and fire the turn callback (returned
here as the second component). -/
def applyDirection (e : Engine) (who : AgentId) (dir : Vec) :
    Engine × Option AgentId :=
  match who with
  | .player =>
    let p := e.player
    let p1 : Agent := { p with dir := dir, segments := p.segments ++ [⟨p.pos, p.pos⟩] }
    ({ e with player := p1 }, some .player)
  | .ai =>
    let p := e.ai
    let p1 : Agent := { p with dir := dir, segments := p.segments ++ [⟨p.pos, p.pos⟩] }
    ({ e with ai := p1, aiDistanceSinceTurn := 0 }, some .ai)

/-- `setPlayerDirection(direction)`: ignored unless the round is running;
ignored when the requested direction is opposite or identical to the current
one; otherwise applies the turn.  The second component is the `onTurn`
event. -/
def setPlayerDirection (e : Engine) (direction : Direction) :
    Engine × Option AgentId :=
  if e.running = false then (e, none)
  else
    let nextDir := DIRECTION_VECTORS direction
    if isOpposite e.player.dir nextDir then (e, none)
    else if isSameDirection e.player.dir nextDir then (e, none)
    else applyDirection e .player nextDir

/-- Replace the final segment's endpoint (empty trail untouched; the engine
never produces one — `resetRoundState` seeds each trail with a degenerate
segment). -/
def setLastEndpoint : List Segment → Vec → List Segment
  | [], _ => []
  | [s], p => [⟨s.a, p⟩]
  | s :: rest, p => s :: setLastEndpoint rest p

/-- `extendSegment(player, nextPos)`: the open segment's endpoint and the
agent's position both become `nextPos`. -/
def extendSegment (ag : Agent) (nextPos : Vec) : Agent :=
  { ag with pos := nextPos, segments := setLastEndpoint ag.segments nextPos }

/-- The speed-ramp block at the top of `update`: accumulate elapsed time and
apply one `SPEED_STEP` per whole `SPEED_INTERVAL` spanned, capping at
`MAX_SPEED`. -/
def speedRamp (e : Engine) (delta : Q) : Engine :=
  let t := e.speedTimer + delta
  if SPEED_INTERVAL ≤ t then
    let steps : ℤ := (t / SPEED_INTERVAL).qfloor
    { e with speed := Q.qmin MAX_SPEED (e.speed + ⟨steps, 1⟩ * SPEED_STEP),
             speedTimer := t - ⟨steps, 1⟩ * SPEED_INTERVAL }
  else { e with speedTimer := t }

/-- `updateAI(delta)`: decrement the decision timer; when it reaches zero,
rearm it with the difficulty's `decisionInterval` and apply the chosen
direction when it differs from the current one. -/
def updateAI (e : Engine) (delta : Q) : Engine :=
  let e1 := { e with aiDecisionTimer := e.aiDecisionTimer - delta }
  if 0 < e1.aiDecisionTimer then e1
  else
    let config := DIFFICULTY_CONFIG e1.difficulty
    let e2 := { e1 with aiDecisionTimer := config.decisionInterval }
    match decideAiDirection e2 config with
    | some chosen =>
      if isSameDirection e2.ai.dir chosen then e2
      else (applyDirection e2 .ai chosen).1
    | none => e2

/-- `endRound(result)`: ignored when the round is not running, otherwise the
round stops and the result is raised (returned). -/
def endRound (e : Engine) (result : RoundResult) : Engine × Option RoundResult :=
  if e.running = false then (e, none)
  else ({ e with running := false }, some result)

/-! ## The simulation tick (`update`) -/

/-- Intermediate data of one running, unpaused tick.  `pre` is the engine
state after the speed ramp and AI update but before either move commits
(no trail extended, no position changed); `post` additionally has both
trails extended to the candidate endpoints and both positions updated.  The
three booleans are the ones the source computes — after both calls to
`extendSegment`. -/
structure TickResult where
  pre : Engine
  post : Engine
  nextPlayerPos : Vec
  nextAiPos : Vec
  playerHit : Bool
  aiHit : Bool
  headHit : Bool
deriving Repr

/-- The body of `update(delta)` past its `running`/`paused` guard, up to and
including the three collision booleans, in source order: speed ramp,
`updateAI`, travel-distance accrual, candidate positions, both
`extendSegment` calls, then `checkCollision` for the player, `checkCollision`
for the AI, and the head-to-head distance test
`distance(nextPlayerPos, nextAiPos) <= COLLISION_RADIUS * 2`. -/
def tickCore (e : Engine) (delta : Q) : TickResult :=
  let e1 := speedRamp e delta
  let e2 := updateAI e1 delta
  let moveDistance := e2.speed * delta
  let e3 := { e2 with aiDistanceSinceTurn := e2.aiDistanceSinceTurn + moveDistance }
  let nextPlayerPos : Vec :=
    ⟨e3.player.pos.x + e3.player.dir.x * moveDistance,
     e3.player.pos.y + e3.player.dir.y * moveDistance⟩
  let nextAiPos : Vec :=
    ⟨e3.ai.pos.x + e3.ai.dir.x * moveDistance,
     e3.ai.pos.y + e3.ai.dir.y * moveDistance⟩
  let e4 := { e3 with player := extendSegment e3.player nextPlayerPos,
                      ai := extendSegment e3.ai nextAiPos }
  let playerHit := checkCollision e4.width e4.height nextPlayerPos e4.player e4.ai 0
  let aiHit := checkCollision e4.width e4.height nextAiPos e4.ai e4.player 0
  let headHit := decide (dist2 nextPlayerPos nextAiPos ≤
    (COLLISION_RADIUS * 2) * (COLLISION_RADIUS * 2))
  { pre := e3, post := e4, nextPlayerPos := nextPlayerPos,
    nextAiPos := nextAiPos, playerHit := playerHit, aiHit := aiHit,
    headHit := headHit }

/-- The outcome cascade closing `update`: head-to-head or double hit is a
tie, a lone player hit ends the round for the AI, a lone AI hit for the
player, otherwise the round continues.  (The explosion/crash-flash/wall
effects in those branches are presentation-only.) -/
def resolveTick (t : TickResult) : Engine × Option RoundResult :=
  if t.headHit || (t.playerHit && t.aiHit) then endRound t.post .tie
  else if t.playerHit then endRound t.post .ai
  else if t.aiHit then endRound t.post .player
  else (t.post, none)

/-- `update(delta)`: the per-tick entry point.  Presentation-only work
(explosion particles, crash timers, wall-shrink animation) precedes the
guard in the source and is not modelled; while not running or paused the
simulation state is untouched and no outcome is produced. -/
def update (e : Engine) (delta : Q) : Engine × Option RoundResult :=
  if e.running = false ∨ e.paused = true then (e, none)
  else resolveTick (tickCore e delta)

/-- A whole sequence of ticks; collects every outcome raised. -/
def runTicks : Engine → List Q → Engine × List RoundResult
  | e, [] => (e, [])
  | e, d :: ds =>
    let step := update e d
    let rest := runTicks step.1 ds
    (rest.1, step.2.toList ++ rest.2)

/-! ## Round controller -/

/-- `resetRoundState()`: reinitialize speed, both timers, the flags and both
agents (fresh degenerate trails at the spawn points, facing each other).
The crash/wall-shrink fields it also clears are presentation-only.  Note it
does not touch `aiDistanceSinceTurn`. -/
def resetRoundState (e : Engine) : Engine :=
  let centerY := e.height * (1/2)
  let playerSpawn : Vec := ⟨SPAWN_PADDING, centerY⟩
  let aiSpawn : Vec := ⟨e.width - SPAWN_PADDING, centerY⟩
  { e with
    speed := BASE_SPEED, speedTimer := 0, aiDecisionTimer := 0,
    running := false, paused := false,
    player := { pos := playerSpawn, dir := DIRECTION_VECTORS .right,
                segments := [⟨playerSpawn, playerSpawn⟩] },
    ai := { pos := aiSpawn, dir := DIRECTION_VECTORS .left,
            segments := [⟨aiSpawn, aiSpawn⟩] } }

/-- `startRound()`. -/
def startRound (e : Engine) : Engine :=
  { resetRoundState e with running := true, paused := false }

/-- `reset()`. -/
def reset (e : Engine) : Engine :=
  resetRoundState { e with running := false, paused := false }

/-- `pause()`. -/
def pause (e : Engine) : Engine :=
  if e.running then { e with paused := true } else e

/-- `resume()`. -/
def resume (e : Engine) : Engine :=
  if e.running then { e with paused := false } else e

/-- `setDifficulty(level)`. -/
def setDifficulty (e : Engine) (level : Difficulty) : Engine :=
  { e with difficulty := level }

/-! ## Shared helper definitions and lemmas for the claims -/

/-- The collision radius used on every source path: `COLLISION_RADIUS +
COLLISION_TOLERANCE` (the `inflate` term is always `0`). -/
def collisionRadius : Q := COLLISION_RADIUS + COLLISION_TOLERANCE

/-- The direction opposite to a given axis direction. -/
def oppositeDir : Direction → Direction
  | .up => .down
  | .down => .up
  | .left => .right
  | .right => .left

/-! Concrete engine states evaluated by the witnesses and counterexamples
below.  All are reachable mid-round configurations: a 400×300 arena, both
agents carrying the degenerate-then-extended trails `resetRoundState` and
`extendSegment` produce. -/

/-- A running engine; the player moves right, the AI moves left, far apart. -/
def midRoundEngine : Engine :=
  { width := 400, height := 300, running := true, paused := false,
    speed := 240, speedTimer := 0, aiDecisionTimer := 1,
    aiDistanceSinceTurn := 0,
    player := ⟨⟨100, 150⟩, ⟨1, 0⟩, [⟨⟨80, 150⟩, ⟨100, 150⟩⟩]⟩,
    ai := ⟨⟨320, 150⟩, ⟨-1, 0⟩, [⟨⟨340, 150⟩, ⟨320, 150⟩⟩]⟩,
    difficulty := .normal }

/-- `midRoundEngine`, paused. -/
def pausedEngine : Engine := { midRoundEngine with paused := true }

/-- A 144×144 arena (a 6×6 AI grid): the player's trail walls off a short
corridor to the right of the AI, so that continuing forward is safe but
scores worse than turning up.  With `aiDistanceSinceTurn = 0` the forward
bias is active. -/
def turnCooldownDemoEngine : Engine :=
  { width := 144, height := 144, running := true, paused := false,
    speed := 240, speedTimer := 0, aiDecisionTimer := 0,
    aiDistanceSinceTurn := 0,
    player := { pos := ⟨132, 12⟩, dir := ⟨-1, 0⟩,
                segments := [⟨⟨36, 60⟩, ⟨84, 60⟩⟩,
                             ⟨⟨36, 108⟩, ⟨84, 108⟩⟩,
                             ⟨⟨108, 84⟩, ⟨108, 84⟩⟩,
                             ⟨⟨132, 12⟩, ⟨132, 12⟩⟩] },
    ai := { pos := ⟨12, 84⟩, dir := ⟨1, 0⟩,
            segments := [⟨⟨12, 84⟩, ⟨12, 84⟩⟩] },
    difficulty := .normal }

/-- `turnCooldownDemoEngine` with a large distance since the last AI turn,
deactivating the forward bias; it differs from `turnCooldownDemoEngine` in
the `aiDistanceSinceTurn` field only. -/
def turnCooldownDemoEngineFar : Engine :=
  { turnCooldownDemoEngine with aiDistanceSinceTurn := 1000 }

/-- Agents closing head-on, candidate positions 4 apart after one tick of
`1/40` s at speed 240 (travel 6 each). -/
def headOnTieEngine : Engine :=
  { midRoundEngine with
    player := ⟨⟨160, 150⟩, ⟨1, 0⟩, [⟨⟨100, 150⟩, ⟨160, 150⟩⟩]⟩,
    ai := ⟨⟨176, 150⟩, ⟨-1, 0⟩, [⟨⟨236, 150⟩, ⟨176, 150⟩⟩]⟩ }

/-- Agents closing head-on, candidate positions exactly 10 apart after one
tick of `1/40` s. -/
def exactTieEngine : Engine :=
  { midRoundEngine with
    player := ⟨⟨160, 150⟩, ⟨1, 0⟩, [⟨⟨100, 150⟩, ⟨160, 150⟩⟩]⟩,
    ai := ⟨⟨182, 150⟩, ⟨-1, 0⟩, [⟨⟨242, 150⟩, ⟨182, 150⟩⟩]⟩ }

/-- Agents closing head-on, candidate positions 11 apart after one tick of
`1/40` s: closer than `2 × (COLLISION_RADIUS + COLLISION_TOLERANCE) = 12`
but farther than `2 × COLLISION_RADIUS = 10`. -/
def nearTieEngine : Engine :=
  { midRoundEngine with
    player := ⟨⟨160, 150⟩, ⟨1, 0⟩, [⟨⟨100, 150⟩, ⟨160, 150⟩⟩]⟩,
    ai := ⟨⟨183, 150⟩, ⟨-1, 0⟩, [⟨⟨243, 150⟩, ⟨183, 150⟩⟩]⟩ }

/-- The player heads down toward the path of the AI closing leftwards: after
one tick of `1/40` s the player's candidate is within the collision radius of
the stretch of trail the AI lays down during this very tick, but not of any
trail that existed before the tick's moves were committed. -/
def crossedEngine : Engine :=
  { midRoundEngine with
    player := ⟨⟨191, 140⟩, ⟨0, 1⟩, [⟨⟨191, 100⟩, ⟨191, 140⟩⟩]⟩,
    ai := ⟨⟨200, 150⟩, ⟨-1, 0⟩, [⟨⟨243, 150⟩, ⟨200, 150⟩⟩]⟩ }

/-- `midRoundEngine` with the round already over. -/
def endedEngine : Engine := { midRoundEngine with running := false }

/-- A 96×96 arena (a 4×4 AI grid) with both agents on fresh degenerate
trails; the AI at cell `(0,2)` moving right has a surviving forward
candidate. -/
def aiSafeDemoEngine : Engine :=
  { width := 96, height := 96, running := true, paused := false,
    speed := 240, speedTimer := 0, aiDecisionTimer := 0,
    aiDistanceSinceTurn := 0,
    player := { pos := ⟨84, 12⟩, dir := ⟨-1, 0⟩,
                segments := [⟨⟨84, 12⟩, ⟨84, 12⟩⟩] },
    ai := { pos := ⟨12, 60⟩, dir := ⟨1, 0⟩,
            segments := [⟨⟨12, 60⟩, ⟨12, 60⟩⟩] },
    difficulty := .normal }

/-- The four axis-aligned grid directions. -/
def unitDirs : List (ℤ × ℤ) := [(1, 0), (-1, 0), (0, 1), (0, -1)]

theorem pointHitsSegments_nil (p : Vec) (r : Q) :
    pointHitsSegments p [] r = false := rfl

/-! ## Claim C6 — AI grid cell size -/

/-- C6, counterexample: the AI grid cell size (`VORONOI_STEP`) is not
`2 × (trail half-width + collision radius + collision tolerance)` (= 18);
the source multiplies the full trail width. -/
theorem c6_counterexample :
    VORONOI_STEP.val ≠
      ((TRAIL_WIDTH * (1/2) + COLLISION_RADIUS + COLLISION_TOLERANCE) * 2).val := by
  have h1 : VORONOI_STEP = ⟨24, 1⟩ := rfl
  have h2 : (TRAIL_WIDTH * (1/2) + COLLISION_RADIUS + COLLISION_TOLERANCE) * 2 =
      (⟨36, 2⟩ : Q) := rfl
  rw [h1, h2]
  unfold Q.val
  norm_num

/-- C6 (amended): the AI grid's cell size equals
`2 × (full trail width + collision radius + collision tolerance)`, which is
`2 × (6 + 5 + 1) = 24` with the engine's constants. -/
theorem c6_cell_size :
    VORONOI_STEP = (TRAIL_WIDTH + COLLISION_RADIUS + COLLISION_TOLERANCE) * 2 ∧
    VORONOI_STEP.val = 24 ∧
    (∀ e : Engine, gridWOf e = max 4 (e.width / VORONOI_STEP).qfloor ∧
      gridHOf e = max 4 (e.height / VORONOI_STEP).qfloor) := by
  refine ⟨rfl, ?_, fun e => ⟨rfl, rfl⟩⟩
  have h1 : VORONOI_STEP = ⟨24, 1⟩ := rfl
  rw [h1]
  unfold Q.val
  norm_num

/-! ## Claim C4 — self-trail exclusion of the two most recent segments -/

/-- C4: the collision test is exactly the disjunction of the arena-bound
check, the opponent-trail check over the opponent's whole trail, and the
self-trail check over the agent's own segments with the two most recent
removed; consequently a candidate point that clears those three tests does
not register a collision even when it lies within the radius of one of the
agent's two most recent segments. -/
theorem c4_self_exclusion :
    (∀ (w h : Q) (p : Vec) (s o : Agent),
      checkCollision w h p s o 0 =
        (boundsHit w h collisionRadius p ||
         pointHitsSegments p o.segments collisionRadius ||
         pointHitsSegments p (s.segments.take (s.segments.length - 2)) collisionRadius)) ∧
    (∀ (w h : Q) (p : Vec) (s o : Agent),
      boundsHit w h collisionRadius p = false →
      pointHitsSegments p o.segments collisionRadius = false →
      pointHitsSegments p (s.segments.take (s.segments.length - 2)) collisionRadius = false →
      checkCollision w h p s o 0 = false) := by
  have key : ∀ (w h : Q) (p : Vec) (s o : Agent),
      checkCollision w h p s o 0 =
        (boundsHit w h collisionRadius p ||
         pointHitsSegments p o.segments collisionRadius ||
         pointHitsSegments p (s.segments.take (s.segments.length - 2)) collisionRadius) := by
    intro w h p s o
    show (boundsHit w h collisionRadius p ||
         pointHitsSegments p o.segments collisionRadius ||
         (decide (2 < s.segments.length) &&
           pointHitsSegments p (s.segments.take (s.segments.length - 2)) collisionRadius)) = _
    by_cases h3 : 2 < s.segments.length
    · simp [h3]
    · have h0 : s.segments.length - 2 = 0 := by omega
      rw [h0]
      simp [List.take_zero, pointHitsSegments_nil, h3]
  refine ⟨key, fun w h p s o hb ho hs => ?_⟩
  rw [key, hb, ho, hs]
  rfl

/-- Concrete instance for `c4_self_exclusion`: the candidate point lies
within the collision radius of the agent's most recent (growing) segment,
yet no collision registers because bounds, opponent trail and the truncated
self trail are all clear. -/
theorem c4_self_exclusion_witness :
    pointHitsSegments ⟨205, 120⟩
      [⟨⟨50, 150⟩, ⟨200, 150⟩⟩, ⟨⟨200, 150⟩, ⟨200, 140⟩⟩, ⟨⟨200, 140⟩, ⟨200, 100⟩⟩]
      collisionRadius = true ∧
    checkCollision 400 300 ⟨205, 120⟩
      ⟨⟨200, 100⟩, ⟨0, -1⟩,
        [⟨⟨50, 150⟩, ⟨200, 150⟩⟩, ⟨⟨200, 150⟩, ⟨200, 140⟩⟩, ⟨⟨200, 140⟩, ⟨200, 100⟩⟩]⟩
      ⟨⟨350, 50⟩, ⟨-1, 0⟩, [⟨⟨350, 50⟩, ⟨350, 50⟩⟩]⟩ 0 = false := by
  constructor
  · decide
  · exact c4_self_exclusion.2 400 300 ⟨205, 120⟩
      ⟨⟨200, 100⟩, ⟨0, -1⟩,
        [⟨⟨50, 150⟩, ⟨200, 150⟩⟩, ⟨⟨200, 150⟩, ⟨200, 140⟩⟩, ⟨⟨200, 140⟩, ⟨200, 100⟩⟩]⟩
      ⟨⟨350, 50⟩, ⟨-1, 0⟩, [⟨⟨350, 50⟩, ⟨350, 50⟩⟩]⟩
      (by decide) (by decide) (by decide)

/-! ## Claim C8 — rejection of opposite and identical player directions -/

/-- C8: issuing the direction opposite to the player's current one, or the
current direction itself, leaves the engine state untouched (in particular
direction and trail segment count); issuing a perpendicular direction while
the round is running sets the new direction and appends one turn segment. -/
theorem c8_direction_rules (e : Engine) (c d : Direction)
    (hdir : e.player.dir = DIRECTION_VECTORS c) :
    ((d = oppositeDir c ∨ d = c) → setPlayerDirection e d = (e, none)) ∧
    (e.running = true → d ≠ c → d ≠ oppositeDir c →
      (setPlayerDirection e d).1.player.dir = DIRECTION_VECTORS d ∧
      (setPlayerDirection e d).1.player.segments.length =
        e.player.segments.length + 1) := by
  constructor
  · intro hd
    unfold setPlayerDirection
    cases hr : e.running
    · simp
    · rcases hd with hd | hd
      · subst hd
        have hopp : isOpposite (DIRECTION_VECTORS c)
            (DIRECTION_VECTORS (oppositeDir c)) = true := by
          cases c <;> decide
        rw [hdir]
        simp [hopp]
      · subst hd
        have hopp : isOpposite (DIRECTION_VECTORS d) (DIRECTION_VECTORS d) = false := by
          cases d <;> decide
        have hsame : isSameDirection (DIRECTION_VECTORS d)
            (DIRECTION_VECTORS d) = true := by
          cases d <;> decide
        rw [hdir]
        simp [hopp, hsame]
  · intro hr h1 h2
    unfold setPlayerDirection
    rw [hr, hdir]
    have hopp : isOpposite (DIRECTION_VECTORS c) (DIRECTION_VECTORS d) = false := by
      cases c <;> cases d <;> revert h1 h2 <;> decide
    have hsame : isSameDirection (DIRECTION_VECTORS c) (DIRECTION_VECTORS d) = false := by
      cases c <;> cases d <;> revert h1 h2 <;> decide
    simp [hopp, hsame, applyDirection]

/-- Witness for `c8_direction_rules`: in `midRoundEngine` (moving right) the
opposite input `left` is a no-op, and the perpendicular input `up` appends a
turn segment. -/
theorem c8_direction_rules_witness :
    setPlayerDirection midRoundEngine Direction.left = (midRoundEngine, none) ∧
    (setPlayerDirection midRoundEngine Direction.up).1.player.segments.length = 2 := by
  constructor
  · exact (c8_direction_rules midRoundEngine Direction.right Direction.left rfl).1
      (Or.inl rfl)
  · have h := (c8_direction_rules midRoundEngine Direction.right Direction.up rfl).2
      rfl (by decide) (by decide)
    rw [h.2]
    rfl

/-! ## Claim C9 — player turns are not blocked by pause -/

/-- C9: with the round running but paused, a perpendicular direction still
takes effect — the guard of `setPlayerDirection` checks only `running`: the
direction is updated, a zero-length segment is appended at the current
position, the turn event fires, and the engine stays paused. -/
theorem c9_turn_while_paused (e : Engine) (c d : Direction)
    (hdir : e.player.dir = DIRECTION_VECTORS c)
    (hr : e.running = true) (hp : e.paused = true)
    (h1 : d ≠ c) (h2 : d ≠ oppositeDir c) :
    (setPlayerDirection e d).1.player.dir = DIRECTION_VECTORS d ∧
    (setPlayerDirection e d).1.player.segments =
      e.player.segments ++ [⟨e.player.pos, e.player.pos⟩] ∧
    (setPlayerDirection e d).2 = some AgentId.player ∧
    (setPlayerDirection e d).1.paused = true := by
  unfold setPlayerDirection
  rw [hr, hdir]
  have hopp : isOpposite (DIRECTION_VECTORS c) (DIRECTION_VECTORS d) = false := by
    cases c <;> cases d <;> revert h1 h2 <;> decide
  have hsame : isSameDirection (DIRECTION_VECTORS c) (DIRECTION_VECTORS d) = false := by
    cases c <;> cases d <;> revert h1 h2 <;> decide
  simp [hopp, hsame, applyDirection, hp]

/-- Witness for `c9_turn_while_paused`: `pausedEngine` (running and paused)
accepts the perpendicular turn `down` and fires the turn event. -/
theorem c9_turn_while_paused_witness :
    (setPlayerDirection pausedEngine Direction.down).2 = some AgentId.player := by
  exact (c9_turn_while_paused pausedEngine Direction.right Direction.down rfl rfl rfl
    (by decide) (by decide)).2.2.1

/-! ## Claim C10 — `resetRoundState` carries `aiDistanceSinceTurn` over -/

/-- C10: `resetRoundState` (hence also `startRound` and `reset`)
reinitializes speed, both timers, the running/paused flags and both agents'
positions, directions and trails, but leaves `aiDistanceSinceTurn`
unchanged; and the carried-over value influences the next round's AI
decisions — two engine states differing only in `aiDistanceSinceTurn`
produce different `decideAiDirection` results through the forward-bias
cooldown. -/
theorem c10_reset_preserves_turn_distance :
    (∀ e : Engine,
      (resetRoundState e).aiDistanceSinceTurn = e.aiDistanceSinceTurn ∧
      (startRound e).aiDistanceSinceTurn = e.aiDistanceSinceTurn ∧
      (reset e).aiDistanceSinceTurn = e.aiDistanceSinceTurn ∧
      (resetRoundState e).speed = BASE_SPEED ∧
      (resetRoundState e).speedTimer = 0 ∧
      (resetRoundState e).aiDecisionTimer = 0 ∧
      (resetRoundState e).running = false ∧
      (resetRoundState e).paused = false ∧
      (resetRoundState e).player.pos = ⟨SPAWN_PADDING, e.height * (1/2)⟩ ∧
      (resetRoundState e).player.dir = DIRECTION_VECTORS .right ∧
      (resetRoundState e).player.segments =
        [⟨⟨SPAWN_PADDING, e.height * (1/2)⟩, ⟨SPAWN_PADDING, e.height * (1/2)⟩⟩] ∧
      (resetRoundState e).ai.pos = ⟨e.width - SPAWN_PADDING, e.height * (1/2)⟩ ∧
      (resetRoundState e).ai.dir = DIRECTION_VECTORS .left ∧
      (resetRoundState e).ai.segments =
        [⟨⟨e.width - SPAWN_PADDING, e.height * (1/2)⟩,
          ⟨e.width - SPAWN_PADDING, e.height * (1/2)⟩⟩]) ∧
    turnCooldownDemoEngineFar =
      { turnCooldownDemoEngine with aiDistanceSinceTurn := 1000 } ∧
    decideAiDirection turnCooldownDemoEngine
        (DIFFICULTY_CONFIG turnCooldownDemoEngine.difficulty) ≠
      decideAiDirection turnCooldownDemoEngineFar
        (DIFFICULTY_CONFIG turnCooldownDemoEngineFar.difficulty) := by
  refine ⟨fun e => ?_, rfl, by decide⟩
  refine ⟨rfl, rfl, rfl, rfl, rfl, rfl, rfl, rfl, rfl, rfl, rfl, rfl, rfl, rfl⟩

/-! ## Structural lemmas about one tick -/

theorem speedRamp_running (e : Engine) (delta : Q) :
    (speedRamp e delta).running = e.running := by
  unfold speedRamp
  dsimp only
  split <;> rfl

theorem updateAI_running (e : Engine) (delta : Q) :
    (updateAI e delta).running = e.running := by
  unfold updateAI
  dsimp only
  split
  · rfl
  · split
    · split
      · rfl
      · unfold applyDirection
        rfl
    · rfl

theorem tickCore_post_running (e : Engine) (delta : Q) :
    (tickCore e delta).post.running = e.running := by
  show (updateAI (speedRamp e delta) delta).running = e.running
  rw [updateAI_running, speedRamp_running]

theorem update_not_running (e : Engine) (delta : Q) (h : e.running = false) :
    update e delta = (e, none) := by
  unfold update
  rw [h]
  simp

theorem update_some_stops (e : Engine) (delta : Q)
    (h : (update e delta).2.isSome = true) : (update e delta).1.running = false := by
  revert h
  unfold update resolveTick endRound
  split
  · intro h
    simp at h
  · split
    · split
      · intro h
        simp at h
      · intro h
        rfl
    · split
      · split
        · intro h
          simp at h
        · intro h
          rfl
      · split
        · split
          · intro h
            simp at h
          · intro h
            rfl
        · intro h
          simp at h

/-- Shared resolution lemma: on a running, unpaused tick the produced
outcome is the four-way cascade over the tick's three collision booleans. -/
theorem update_resolution (e : Engine) (delta : Q)
    (hr : e.running = true) (hp : e.paused = false) :
    (update e delta).2 =
      (if (tickCore e delta).headHit ||
          ((tickCore e delta).playerHit && (tickCore e delta).aiHit) then
        some RoundResult.tie
       else if (tickCore e delta).playerHit then some RoundResult.ai
       else if (tickCore e delta).aiHit then some RoundResult.player
       else none) := by
  have hrun : (tickCore e delta).post.running = true := by
    rw [tickCore_post_running, hr]
  unfold update
  rw [hr, hp]
  simp only [Bool.true_eq_false, or_self, if_false]
  unfold resolveTick endRound
  cases hh : (tickCore e delta).headHit <;>
    cases hph : (tickCore e delta).playerHit <;>
    cases hah : (tickCore e delta).aiHit <;>
    simp [hh, hph, hah, hrun]

/-! ## Claim C1 — per-tick outcome resolution -/

/-- C1: on a running, unpaused tick, after the candidate positions are
computed, the outcome is: tie when the head-to-head test holds or both
collision checks are true; otherwise the AI wins when only the player's
check is true; otherwise the player wins when only the AI's check is true;
otherwise no outcome. -/
theorem c1_outcome_resolution (e : Engine) (delta : Q)
    (hr : e.running = true) (hp : e.paused = false) :
    (update e delta).2 =
      (if (tickCore e delta).headHit ||
          ((tickCore e delta).playerHit && (tickCore e delta).aiHit) then
        some RoundResult.tie
       else if (tickCore e delta).playerHit then some RoundResult.ai
       else if (tickCore e delta).aiHit then some RoundResult.player
       else none) :=
  update_resolution e delta hr hp

/-- Witness for `c1_outcome_resolution`: the head-on engine resolves its
first tick as a tie. -/
theorem c1_outcome_resolution_witness :
    (update headOnTieEngine (1/40)).2 = some RoundResult.tie := by
  rw [c1_outcome_resolution headOnTieEngine (1/40) rfl rfl]
  decide

/-! ## Claim C2 — when in the tick the collision booleans are computed -/

/-- C2, counterexample: the collision booleans are not computed from the
pre-commit state.  On `crossedEngine`'s tick the player's collision boolean
is true, yet the same collision test applied to the tick's pre-commit state
(trails not yet extended, positions not yet updated — the `pre` field of
`tickCore`) is false: the hit is against trail laid down by the AI's move of
this very tick. -/
theorem c2_precommit_counterexample :
    (tickCore crossedEngine (1/40)).playerHit = true ∧
    checkCollision (tickCore crossedEngine (1/40)).pre.width
      (tickCore crossedEngine (1/40)).pre.height
      (tickCore crossedEngine (1/40)).nextPlayerPos
      (tickCore crossedEngine (1/40)).pre.player
      (tickCore crossedEngine (1/40)).pre.ai 0 = false := by
  constructor
  · decide
  · decide

/-- C2 (amended): both candidate positions are computed from the same
pre-commit state, but both collision booleans are then computed from the
same post-commit state, in which both trails have already been extended to
the candidate endpoints and both positions updated; the evaluation is still
symmetric between the agents — neither check runs between the two
`extendSegment` calls. -/
theorem c2_hits_from_post_state (e : Engine) (delta : Q) :
    (tickCore e delta).playerHit =
      checkCollision (tickCore e delta).post.width (tickCore e delta).post.height
        (tickCore e delta).nextPlayerPos (tickCore e delta).post.player
        (tickCore e delta).post.ai 0 ∧
    (tickCore e delta).aiHit =
      checkCollision (tickCore e delta).post.width (tickCore e delta).post.height
        (tickCore e delta).nextAiPos (tickCore e delta).post.ai
        (tickCore e delta).post.player 0 ∧
    (tickCore e delta).post.player =
      extendSegment (tickCore e delta).pre.player (tickCore e delta).nextPlayerPos ∧
    (tickCore e delta).post.ai =
      extendSegment (tickCore e delta).pre.ai (tickCore e delta).nextAiPos :=
  ⟨rfl, rfl, rfl, rfl⟩

/-! ## Claim C3 — head-to-head threshold -/

/-- C3, counterexample: on `nearTieEngine`'s tick the candidate positions
are within `2 × (COLLISION_RADIUS + COLLISION_TOLERANCE)` (= 12) of each
other, yet the head-to-head condition is false and the tick produces no
outcome at all — the source compares against `COLLISION_RADIUS * 2` (= 10),
without the tolerance term. -/
theorem c3_threshold_counterexample :
    dist2 (tickCore nearTieEngine (1/40)).nextPlayerPos
        (tickCore nearTieEngine (1/40)).nextAiPos ≤
      ((COLLISION_RADIUS + COLLISION_TOLERANCE) * 2) *
        ((COLLISION_RADIUS + COLLISION_TOLERANCE) * 2) ∧
    (tickCore nearTieEngine (1/40)).headHit = false ∧
    (update nearTieEngine (1/40)).2 = none := by
  refine ⟨by decide, by decide, by decide⟩

/-- C3 (amended): the head-to-head tie condition of a tick holds exactly
when the distance between the two candidate positions is at most
`2 × COLLISION_RADIUS` (= 10, the tolerance term is not included), and when
it holds the tick's outcome is a tie regardless of the trail-collision
booleans. -/
theorem c3_head_to_head (e : Engine) (delta : Q)
    (hr : e.running = true) (hp : e.paused = false) :
    ((tickCore e delta).headHit = true ↔
      dist2 (tickCore e delta).nextPlayerPos (tickCore e delta).nextAiPos ≤
        (COLLISION_RADIUS * 2) * (COLLISION_RADIUS * 2)) ∧
    ((tickCore e delta).headHit = true → (update e delta).2 = some RoundResult.tie) := by
  constructor
  · show decide _ = true ↔ _
    exact decide_eq_true_iff
  · intro hh
    rw [update_resolution e delta hr hp, hh]
    rfl

/-- Witness for `c3_head_to_head`: candidate positions exactly 10 apart tie
the round. -/
theorem c3_head_to_head_witness :
    (update exactTieEngine (1/40)).2 = some RoundResult.tie := by
  refine (c3_head_to_head exactTieEngine (1/40) rfl rfl).2 ?_
  decide

/-! ## Claim C7 — one outcome per round, then the engine freezes -/

theorem runTicks_not_running (ds : List Q) (e : Engine) (h : e.running = false) :
    runTicks e ds = (e, []) := by
  induction ds with
  | nil => rfl
  | cons d ds ih =>
    show (let step := update e d
          let rest := runTicks step.1 ds
          ((rest.1, step.2.toList ++ rest.2) : Engine × List RoundResult)) = (e, [])
    rw [update_not_running e d h]
    dsimp only
    rw [ih]
    rfl

theorem runTicks_length_le_one (ds : List Q) (e : Engine) :
    (runTicks e ds).2.length ≤ 1 := by
  induction ds generalizing e with
  | nil => simp [runTicks]
  | cons d ds ih =>
    show (let step := update e d
          let rest := runTicks step.1 ds
          ((rest.1, step.2.toList ++ rest.2) : Engine × List RoundResult)).2.length ≤ 1
    dsimp only
    cases hstep : (update e d).2 with
    | none =>
      simpa using ih (update e d).1
    | some r =>
      have hstop : (update e d).1.running = false :=
        update_some_stops e d (by rw [hstep]; rfl)
      rw [runTicks_not_running ds _ hstop]
      simp

/-- C7: (1) any sequence of ticks without an intervening `startRound` or
`reset` raises at most one outcome; (2) once the round is not running, ticks
leave the entire modelled state (agents, speed, timers) untouched and raise
nothing; (3) any tick that raises an outcome leaves the round not running;
(4) a running unpaused tick on which any collision condition holds raises
an outcome and stops the round. -/
theorem c7_one_outcome_then_frozen :
    (∀ (e : Engine) (ds : List Q), (runTicks e ds).2.length ≤ 1) ∧
    (∀ (e : Engine) (ds : List Q), e.running = false → runTicks e ds = (e, [])) ∧
    (∀ (e : Engine) (delta : Q), (update e delta).2.isSome = true →
      (update e delta).1.running = false) ∧
    (∀ (e : Engine) (delta : Q), e.running = true → e.paused = false →
      ((tickCore e delta).headHit || (tickCore e delta).playerHit ||
        (tickCore e delta).aiHit) = true →
      (update e delta).2.isSome = true ∧ (update e delta).1.running = false) := by
  refine ⟨fun e ds => runTicks_length_le_one ds e,
    fun e ds h => runTicks_not_running ds e h,
    fun e delta h => update_some_stops e delta h, ?_⟩
  intro e delta hr hp hhit
  have hsome : (update e delta).2.isSome = true := by
    rw [update_resolution e delta hr hp]
    cases hh : (tickCore e delta).headHit <;>
      cases hph : (tickCore e delta).playerHit <;>
      cases hah : (tickCore e delta).aiHit <;>
      simp_all
  exact ⟨hsome, update_some_stops e delta hsome⟩

/-- Witness for `c7_one_outcome_then_frozen`: an ended engine is untouched
by further ticks and a head-on tick raises an outcome. -/
theorem c7_one_outcome_then_frozen_witness :
    runTicks endedEngine [1/40, 1/40, 1/40] = (endedEngine, []) ∧
    (update headOnTieEngine (1/25)).2.isSome = true := by
  constructor
  · exact c7_one_outcome_then_frozen.2.1 endedEngine [1/40, 1/40, 1/40] rfl
  · exact (c7_one_outcome_then_frozen.2.2.2 headOnTieEngine (1/25) rfl rfl
      (by decide)).1


/-! ## Claim C5 — the AI only returns safe moves when one exists -/

theorem vectorToGridDir_mem_unitDirs (v : Vec) : vectorToGridDir v ∈ unitDirs := by
  unfold vectorToGridDir unitDirs
  split
  · simp
  · split
    · simp
    · split <;> simp

theorem getGridMoves_eq (d : ℤ × ℤ) :
    getGridMoves d = [d, (0, -1), (0, 1)] ∨ getGridMoves d = [d, (0, 1), (0, -1)] ∨
    getGridMoves d = [d, (1, 0), (-1, 0)] ∨ getGridMoves d = [d, (-1, 0), (1, 0)] := by
  unfold getGridMoves
  split
  · left
    rfl
  · split
    · right
      left
      rfl
    · split
      · right
        right
        left
        rfl
      · right
        right
        right
        rfl

theorem getGridMoves_mem_unitDirs (d : ℤ × ℤ) (hd : d ∈ unitDirs) :
    ∀ m ∈ getGridMoves d, m ∈ unitDirs := by
  intro m hm
  rcases getGridMoves_eq d with hg | hg | hg | hg <;>
    rw [hg] at hm <;>
    simp only [List.mem_cons, List.not_mem_nil, or_false] at hm <;>
    rcases hm with rfl | rfl | rfl <;>
    first
      | exact hd
      | decide

theorem vectorToGridDir_gridDirToVec (m : ℤ × ℤ) (hm : m ∈ unitDirs) :
    vectorToGridDir (gridDirToVec m) = m := by
  simp only [unitDirs, List.mem_cons, List.not_mem_nil, or_false] at hm
  rcases hm with rfl | rfl | rfl | rfl <;> decide

theorem getGridMoves_headD (d : ℤ × ℤ) : (getGridMoves d).headD d = d := by
  rcases getGridMoves_eq d with hg | hg | hg | hg <;> rw [hg] <;> rfl

theorem getGridMoves_headD_mem (d : ℤ × ℤ) :
    (getGridMoves d).headD d ∈ getGridMoves d := by
  rcases getGridMoves_eq d with hg | hg | hg | hg <;> rw [hg] <;>
    exact List.mem_cons_self _ _

theorem moveSurvives_safe (occupied : Cells) (a : GridState) (w h : ℤ)
    (minShort : ℕ) (m : ℤ × ℤ) (_hdead : a.dead = false)
    (hs : moveSurvives occupied a w h minShort m) :
    moveSafe occupied a w h m := by
  rcases hs with ⟨hd, _⟩
  unfold applyGridMove at hd
  dsimp only at hd
  by_cases hb : (a.x + m.1 < 0 ∨ a.y + m.2 < 0 ∨ w ≤ a.x + m.1 ∨ h ≤ a.y + m.2)
  · rw [if_pos hb] at hd
    exact absurd hd (by simp)
  · rw [if_neg hb] at hd
    by_cases ho : Cells.mem occupied (a.x + m.1, a.y + m.2) = true
    · rw [if_pos ho] at hd
      exact absurd hd (by simp)
    · refine ⟨by omega, by omega, by omega, by omega, ?_⟩
      exact Bool.not_eq_true _ ▸ Bool.of_not_eq_true ho

theorem scoreStep_cases (occupied : Cells) (a p : GridState) (w h : ℤ)
    (minShort : ℕ) (acc : Option (Q × (ℤ × ℤ))) (m : ℤ × ℤ) :
    scoreStep occupied a p w h minShort acc m = acc ∨
    (moveSurvives occupied a w h minShort m ∧
     scoreStep occupied a p w h minShort acc m =
       some (moveScore occupied a p w h minShort m, m)) := by
  cases acc with
  | none =>
    unfold scoreStep
    dsimp only
    split
    · left
      rfl
    · next hdead =>
      split
      · left
        rfl
      · next hclear =>
        right
        exact ⟨⟨by simpa using hdead, by omega⟩, rfl⟩
  | some best =>
    obtain ⟨bs, bd⟩ := best
    unfold scoreStep
    dsimp only
    split
    · left
      rfl
    · next hdead =>
      split
      · left
        rfl
      · next hclear =>
        split
        · next hlt =>
          right
          exact ⟨⟨by simpa using hdead, by omega⟩, rfl⟩
        · left
          rfl

theorem scoreStep_none_survives (occupied : Cells) (a p : GridState) (w h : ℤ)
    (minShort : ℕ) (m : ℤ × ℤ) (hs : moveSurvives occupied a w h minShort m) :
    scoreStep occupied a p w h minShort none m =
      some (moveScore occupied a p w h minShort m, m) := by
  obtain ⟨hd, hcl⟩ := hs
  unfold scoreStep
  dsimp only
  rw [if_neg (by simp [hd]), if_neg (by omega)]

theorem scoreStep_eq_none (occupied : Cells) (a p : GridState) (w h : ℤ)
    (minShort : ℕ) (acc : Option (Q × (ℤ × ℤ))) (m : ℤ × ℤ)
    (heq : scoreStep occupied a p w h minShort acc m = none) :
    acc = none ∧ ¬ moveSurvives occupied a w h minShort m := by
  rcases scoreStep_cases occupied a p w h minShort acc m with hc | ⟨hs, hc⟩
  · have hacc : acc = none := by
      rw [heq] at hc
      exact hc.symm
    refine ⟨hacc, fun hs => ?_⟩
    rw [hacc, scoreStep_none_survives occupied a p w h minShort m hs] at heq
    exact absurd heq (by simp)
  · rw [heq] at hc
    exact absurd hc.symm (by simp)

theorem foldl_scoreStep_spec (occupied : Cells) (a p : GridState) (w h : ℤ)
    (minShort : ℕ) (ms : List (ℤ × ℤ)) :
    ∀ acc : Option (Q × (ℤ × ℤ)),
      ms.foldl (scoreStep occupied a p w h minShort) acc = acc ∨
      ∃ s m, m ∈ ms ∧ moveSurvives occupied a w h minShort m ∧
        ms.foldl (scoreStep occupied a p w h minShort) acc = some (s, m) := by
  induction ms with
  | nil =>
    intro acc
    left
    rfl
  | cons m ms ih =>
    intro acc
    rw [List.foldl_cons]
    rcases scoreStep_cases occupied a p w h minShort acc m with hc | ⟨hs, hc⟩
    · rw [hc]
      rcases ih acc with h1 | ⟨s, m', hm', hs', h1⟩
      · left
        exact h1
      · right
        exact ⟨s, m', List.mem_cons_of_mem _ hm', hs', h1⟩
    · rw [hc]
      rcases ih (some (moveScore occupied a p w h minShort m, m)) with
        h1 | ⟨s, m', hm', hs', h1⟩
      · right
        refine ⟨moveScore occupied a p w h minShort m, m, List.mem_cons_self _ _, hs, h1⟩
      · right
        exact ⟨s, m', List.mem_cons_of_mem _ hm', hs', h1⟩

theorem foldl_scoreStep_none (occupied : Cells) (a p : GridState) (w h : ℤ)
    (minShort : ℕ) (ms : List (ℤ × ℤ)) :
    ∀ acc : Option (Q × (ℤ × ℤ)),
      ms.foldl (scoreStep occupied a p w h minShort) acc = none →
      acc = none ∧ ∀ m ∈ ms, ¬ moveSurvives occupied a w h minShort m := by
  induction ms with
  | nil =>
    intro acc heq
    exact ⟨heq, by simp⟩
  | cons m ms ih =>
    intro acc heq
    rw [List.foldl_cons] at heq
    obtain ⟨hstep, hall⟩ := ih _ heq
    obtain ⟨hacc, hns⟩ := scoreStep_eq_none occupied a p w h minShort acc m hstep
    refine ⟨hacc, ?_⟩
    intro m' hm'
    rcases List.mem_cons.mp hm' with rfl | hm'
    · exact hns
    · exact hall m' hm'

/-- C5: whenever at least one of the three candidate moves (forward, left,
right — reversal is never generated) survives the rejection tests — its cell
is in-grid and unoccupied and its straight-ahead clearance is at least 2 —
`decideAiDirection` returns a direction, and that direction (whether the
scored winner or the forward-bias override) leads to an in-grid, unoccupied
cell. -/
theorem c5_ai_safe_choice (e : Engine) (config : DifficultyConfig)
    (hex : ∃ m ∈ getGridMoves (aiGridState e).dir,
      moveSurvives (occupiedOf e) (aiGridState e) (gridWOf e) (gridHOf e)
        config.minShortClear m) :
    ∃ d, decideAiDirection e config = some d ∧
      moveSafe (occupiedOf e) (aiGridState e) (gridWOf e) (gridHOf e)
        (vectorToGridDir d) := by
  obtain ⟨m0, hm0, hs0⟩ := hex
  have hdead : (aiGridState e).dead = false := rfl
  have hdirmem : (aiGridState e).dir ∈ unitDirs := vectorToGridDir_mem_unitDirs _
  rcases foldl_scoreStep_spec (occupiedOf e) (aiGridState e) (playerGridState e)
      (gridWOf e) (gridHOf e) config.minShortClear
      (getGridMoves (aiGridState e).dir) none with hnone | ⟨s, m, hm, hs, hfold⟩
  · obtain ⟨_, hall⟩ := foldl_scoreStep_none (occupiedOf e) (aiGridState e)
      (playerGridState e) (gridWOf e) (gridHOf e) config.minShortClear
      (getGridMoves (aiGridState e).dir) none hnone
    exact absurd hs0 (hall m0 hm0)
  · have hmU : m ∈ unitDirs := getGridMoves_mem_unitDirs _ hdirmem m hm
    have hsafe_m : moveSafe (occupiedOf e) (aiGridState e) (gridWOf e) (gridHOf e) m :=
      moveSurvives_safe _ _ _ _ _ _ hdead hs
    have hbm : bestMoveOf (occupiedOf e) (aiGridState e) (playerGridState e)
        (gridWOf e) (gridHOf e) config.minShortClear
        (getGridMoves (aiGridState e).dir) = some (s, m) := hfold
    have hfwd_eq : (getGridMoves (aiGridState e).dir).headD (aiGridState e).dir =
        (aiGridState e).dir := getGridMoves_headD _
    unfold decideAiDirection
    dsimp only
    rw [hbm]
    cases hcool : turnCooldownOf e
    · simp only [Bool.false_eq_true, if_false]
      refine ⟨gridDirToVec m, rfl, ?_⟩
      rw [vectorToGridDir_gridDirToVec m hmU]
      exact hsafe_m
    · simp only [if_true]
      by_cases hsame : isSameGridDir
          ((getGridMoves (aiGridState e).dir).headD (aiGridState e).dir) m = true
      · rw [if_pos hsame]
        refine ⟨gridDirToVec m, rfl, ?_⟩
        rw [vectorToGridDir_gridDirToVec m hmU]
        exact hsafe_m
      · rw [if_neg hsame]
        by_cases hfchk :
            (!(applyGridMove (aiGridState e)
                ((getGridMoves (aiGridState e).dir).headD (aiGridState e).dir)
                (occupiedOf e) (gridWOf e) (gridHOf e)).dead &&
             decide (2 ≤ gridClearance
                (applyGridMove (aiGridState e)
                  ((getGridMoves (aiGridState e).dir).headD (aiGridState e).dir)
                  (occupiedOf e) (gridWOf e) (gridHOf e))
                (gridWOf e) (gridHOf e) (occupiedOf e) config.minShortClear)) = true
        · rw [if_pos hfchk]
          refine ⟨gridDirToVec ((getGridMoves (aiGridState e).dir).headD (aiGridState e).dir),
            rfl, ?_⟩
          have hfsurv : moveSurvives (occupiedOf e) (aiGridState e) (gridWOf e)
              (gridHOf e) config.minShortClear
              ((getGridMoves (aiGridState e).dir).headD (aiGridState e).dir) := by
            rw [Bool.and_eq_true, Bool.not_eq_true', decide_eq_true_iff] at hfchk
            exact ⟨hfchk.1, hfchk.2⟩
          have hfU : ((getGridMoves (aiGridState e).dir).headD (aiGridState e).dir) ∈
              unitDirs := by
            rw [hfwd_eq]
            exact hdirmem
          rw [vectorToGridDir_gridDirToVec _ hfU]
          exact moveSurvives_safe _ _ _ _ _ _ hdead hfsurv
        · rw [if_neg hfchk]
          refine ⟨gridDirToVec m, rfl, ?_⟩
          rw [vectorToGridDir_gridDirToVec m hmU]
          exact hsafe_m

/-- Witness for `c5_ai_safe_choice`: on `aiSafeDemoEngine` a surviving
candidate exists, so the returned direction leads to an in-grid unoccupied
cell. -/
theorem c5_ai_safe_choice_witness :
    ∃ d, decideAiDirection aiSafeDemoEngine (DIFFICULTY_CONFIG .normal) = some d ∧
      moveSafe (occupiedOf aiSafeDemoEngine) (aiGridState aiSafeDemoEngine)
        (gridWOf aiSafeDemoEngine) (gridHOf aiSafeDemoEngine) (vectorToGridDir d) :=
  c5_ai_safe_choice aiSafeDemoEngine (DIFFICULTY_CONFIG .normal) (by decide)

end Tron
